import Mathlib

-- Shallow embedding of src/src/vfs_glusterfs.c (Samba VFS module for GlusterFS).
-- Definitions are translated from the C source; theorems settle the spec claims.

namespace VfsGlusterfs

-- ===== POSIX ACL codec (vfs_glusterfs.c lines 945-1208) =====

def GLUSTER_ACL_VERSION : Nat := 2
def GLUSTER_ACL_READ : Nat := 0x04
def GLUSTER_ACL_WRITE : Nat := 0x02
def GLUSTER_ACL_EXECUTE : Nat := 0x01

def GLUSTER_ACL_USER_OBJ : Nat := 0x01
def GLUSTER_ACL_USER : Nat := 0x02
def GLUSTER_ACL_GROUP_OBJ : Nat := 0x04
def GLUSTER_ACL_GROUP : Nat := 0x08
def GLUSTER_ACL_MASK : Nat := 0x10
def GLUSTER_ACL_OTHER : Nat := 0x20

/-- Value of the C expression `(uint32_t)GLUSTER_ACL_UNDEFINED_ID`, i.e. `-1` stored
into the `uint32_t` id field of `struct gluster_ace`. -/
def GLUSTER_ACL_UNDEFINED_ID : Nat := 4294967295

/-- Tags of the external Samba enumeration `SMB_ACL_TAG_T` (smb_acls.h, an external
header of the host server; the module matches exactly these six constructors). -/
inductive SmbTag where
  | USER_OBJ
  | USER
  | GROUP_OBJ
  | GROUP
  | MASK
  | OTHER
deriving DecidableEq

/-- Samba permission bit `SMB_ACL_READ` (external header smb_acls.h; the standard
POSIX ACL value, identical to the gluster wire value). -/
def SMB_ACL_READ : Nat := 4

/-- Samba permission bit `SMB_ACL_WRITE` (external header). -/
def SMB_ACL_WRITE : Nat := 2

/-- Samba permission bit `SMB_ACL_EXECUTE` (external header). -/
def SMB_ACL_EXECUTE : Nat := 1

/-- One entry of `struct smb_acl_t` (`struct smb_acl_entry`): tag, uid, gid and
permission bits. `uid`/`gid` model the `uid_t`/`gid_t` fields (32-bit unsigned). -/
structure SmbAce where
  a_type : SmbTag
  uid : Nat
  gid : Nat
  a_perm : Nat
deriving DecidableEq

/-- `struct gluster_ace`: `uint16_t tag; uint16_t perm; uint32_t id;` (8 bytes). -/
structure GlusterAce where
  tag : Nat
  perm : Nat
  id : Nat
deriving DecidableEq

-- Little-endian byte serialization: SSVAL/SIVAL store 16/32-bit values in
-- little-endian order, SVAL/IVAL read them back.

def le16 (n : Nat) : List Nat := [n % 256, n / 256 % 256]

def le32 (n : Nat) : List Nat :=
  [n % 256, n / 256 % 256, n / 65536 % 256, n / 16777216 % 256]

def rd16 (b0 b1 : Nat) : Nat := b0 + 256 * b1

def rd32 (b0 b1 b2 b3 : Nat) : Nat := b0 + 256 * b1 + 65536 * b2 + 16777216 * b3

/-- Gluster tag value chosen by the `switch (smb_ace->a_type)` of
`smb_to_gluster_acl` (lines 1150-1174). -/
def acl_tag_value : SmbTag → Nat
  | .USER_OBJ => GLUSTER_ACL_USER_OBJ
  | .USER => GLUSTER_ACL_USER
  | .GROUP_OBJ => GLUSTER_ACL_GROUP_OBJ
  | .GROUP => GLUSTER_ACL_GROUP
  | .MASK => GLUSTER_ACL_MASK
  | .OTHER => GLUSTER_ACL_OTHER

/-- Id stored by `smb_to_gluster_acl` (lines 1178-1190): the uid for named users,
the gid for named groups, `GLUSTER_ACL_UNDEFINED_ID` otherwise; the store into the
`uint32_t` field reduces mod 2^32. -/
def acl_entry_id (e : SmbAce) : Nat :=
  match e.a_type with
  | .USER => e.uid % 4294967296
  | .GROUP => e.gid % 4294967296
  | _ => GLUSTER_ACL_UNDEFINED_ID

/-- Permission bits assembled by `smb_to_gluster_acl` (lines 1192-1198). -/
def gluster_perm_of (a_perm : Nat) : Nat :=
  (if a_perm &&& SMB_ACL_READ ≠ 0 then GLUSTER_ACL_READ else 0) |||
  (if a_perm &&& SMB_ACL_WRITE ≠ 0 then GLUSTER_ACL_WRITE else 0) |||
  (if a_perm &&& SMB_ACL_EXECUTE ≠ 0 then GLUSTER_ACL_EXECUTE else 0)

/-- The per-entry conversion performed by the encode loop of `smb_to_gluster_acl`. -/
def smbAceToGluster (e : SmbAce) : GlusterAce :=
  { tag := acl_tag_value e.a_type
    perm := gluster_perm_of e.a_perm
    id := acl_entry_id e }

/-- Reinterpretation of a `uint32_t` value as the C `int` it converts to
(two's complement, as on the targeted platforms). -/
def int32 (n : Nat) : Int :=
  if n % 4294967296 < 2147483648 then ((n % 4294967296 : Nat) : Int)
  else ((n % 4294967296 : Nat) : Int) - 4294967296

/-- Wrapped `uint32_t` subtraction `x - y`. -/
def usub32 (x y : Nat) : Nat := (4294967296 + x % 4294967296 - y % 4294967296) % 4294967296

/-- `gluster_ace_cmp` (lines 971-985): tag difference (exact, `uint16_t` promoted to
`int`), then the id difference computed in `uint32_t` and converted to `int`. -/
def gluster_ace_cmp (a b : GlusterAce) : Int :=
  let r : Int := ((a.tag % 65536 : Nat) : Int) - ((b.tag % 65536 : Nat) : Int)
  if r = 0 then int32 (usub32 a.id b.id) else r

/-- Insertion step of the comparison-sort model of libc `qsort` with
`gluster_ace_cmp`; on element lists where the comparator is a strict total order
(the situation of every theorem below) every comparison sort produces the same
output as this model. -/
def qsort_insert (a : GlusterAce) : List GlusterAce → List GlusterAce
  | [] => [a]
  | b :: l => if gluster_ace_cmp a b ≤ 0 then a :: b :: l else b :: qsort_insert a l

/-- `gluster_acl_normalize` (lines 987-991): `qsort` of the entry array under
`gluster_ace_cmp` (on LP64 the element width `sizeof(struct gluster_ace *)`
coincides with `sizeof(struct gluster_ace) = 8`). -/
def gluster_acl_normalize (l : List GlusterAce) : List GlusterAce :=
  l.foldr qsort_insert []

/-- Serialized form of one `struct gluster_ace` after `gluster_acl_to_xattr`
(lines 993-1008): 2-byte tag, 2-byte perm, 4-byte id, little-endian. -/
def ace_to_xattr (a : GlusterAce) : List Nat :=
  le16 (a.tag % 65536) ++ le16 (a.perm % 65536) ++ le32 (a.id % 4294967296)

/-- The byte blob produced by `gluster_acl_to_xattr`: the 4-byte little-endian
version header followed by the packed entry records. -/
def gluster_acl_to_xattr (l : List GlusterAce) : List Nat :=
  le32 GLUSTER_ACL_VERSION ++ l.flatMap ace_to_xattr

/-- Result of `smb_to_gluster_acl`: the size returned by the size-query mode
(`buf == NULL`), the `errno = ERANGE; return -1` failure (nothing written), or
success (the returned value is the written byte count, i.e. `bytes.length`). -/
inductive EncodeResult where
  | size (n : Nat)
  | rangeError
  | ok (bytes : List Nat)
deriving DecidableEq

/-- `smb_to_gluster_acl` (lines 1119-1208). `bufSupplied = false` models a NULL
destination buffer, `len` the stated buffer length. The write loop stores the
entries in original order, then `gluster_acl_normalize` sorts them in place and
`gluster_acl_to_xattr` fixes the byte order; the net buffer contents are the
serialization of the sorted converted entries. The `a_type` switch cannot fail
because `SmbTag` is the closed external enumeration. -/
def smb_to_gluster_acl (theacl : List SmbAce) (bufSupplied : Bool) (len : Nat) :
    EncodeResult :=
  let size := 4 + theacl.length * 8
  if !bufSupplied then .size size
  else if len < size then .rangeError
  else .ok (gluster_acl_to_xattr (gluster_acl_normalize (theacl.map smbAceToGluster)))

/-- Tag dispatch of the decode loop of `gluster_to_smb_acl` (lines 1065-1087);
`none` models the `default:` branch that makes the whole decode return NULL. -/
def smb_tag_of_gluster (tag : Nat) : Option SmbTag :=
  if tag = GLUSTER_ACL_USER then some .USER
  else if tag = GLUSTER_ACL_USER_OBJ then some .USER_OBJ
  else if tag = GLUSTER_ACL_GROUP then some .GROUP
  else if tag = GLUSTER_ACL_GROUP_OBJ then some .GROUP_OBJ
  else if tag = GLUSTER_ACL_OTHER then some .OTHER
  else if tag = GLUSTER_ACL_MASK then some .MASK
  else none

/-- Permission bits assembled by the decode loop (lines 1104-1110). -/
def smb_perm_of_gluster (perm : Nat) : Nat :=
  (if perm &&& GLUSTER_ACL_READ ≠ 0 then SMB_ACL_READ else 0) |||
  (if perm &&& GLUSTER_ACL_WRITE ≠ 0 then SMB_ACL_WRITE else 0) |||
  (if perm &&& GLUSTER_ACL_EXECUTE ≠ 0 then SMB_ACL_EXECUTE else 0)

/-- Record-by-record decode loop of `gluster_to_smb_acl`. The `uid`/`gid` fields of
entries that are not named users/groups are left untouched by the C code (malloc
garbage); they are modelled as 0 and never inspected by the claims. -/
def decode_aces : List Nat → Option (List SmbAce)
  | [] => some []
  | t0 :: t1 :: p0 :: p1 :: i0 :: i1 :: i2 :: i3 :: rest =>
    match smb_tag_of_gluster (rd16 t0 t1) with
    | none => none
    | some ty =>
      let id := rd32 i0 i1 i2 i3
      let e : SmbAce :=
        { a_type := ty
          uid := if ty = .USER then id else 0
          gid := if ty = .GROUP then id else 0
          a_perm := smb_perm_of_gluster (rd16 p0 p1) }
      match decode_aces rest with
      | none => none
      | some es => some (e :: es)
  | _ => none

/-- `gluster_to_smb_acl` (lines 1010-1117): header-length check, record-alignment
check, version check, then the decode loop; `none` models every NULL return. -/
def gluster_to_smb_acl (buf : List Nat) : Option (List SmbAce) :=
  match buf with
  | b0 :: b1 :: b2 :: b3 :: rest =>
    if (buf.length - 4) % 8 ≠ 0 then none
    else if rd32 b0 b1 b2 b3 ≠ GLUSTER_ACL_VERSION then none
    else decode_aces rest
  | _ => none

-- ===== Metadata translation (smb_stat_ex_from_stat, lines 50-74) =====

/-- Fields of the native `struct stat` used by `smb_stat_ex_from_stat`; the
`*_nsec` fields exist only when the platform defines `STAT_HAVE_NSEC`. All
fields are plain integers; no validation occurs anywhere. -/
structure CStat where
  st_dev : Int
  st_ino : Int
  st_mode : Int
  st_nlink : Int
  st_uid : Int
  st_gid : Int
  st_rdev : Int
  st_size : Int
  st_atime : Int
  st_mtime : Int
  st_ctime : Int
  st_blksize : Int
  st_blocks : Int
  st_atime_nsec : Int
  st_mtime_nsec : Int
  st_ctime_nsec : Int
deriving DecidableEq

/-- A `struct timespec` inside `struct stat_ex`. -/
structure Timespec where
  tv_sec : Int
  tv_nsec : Int
deriving DecidableEq

/-- The fields of `struct stat_ex` assigned by `smb_stat_ex_from_stat`; the
function starts with `ZERO_STRUCTP(dst)`, so unassigned nanosecond fields are 0. -/
structure StatEx where
  st_ex_dev : Int
  st_ex_ino : Int
  st_ex_mode : Int
  st_ex_nlink : Int
  st_ex_uid : Int
  st_ex_gid : Int
  st_ex_rdev : Int
  st_ex_size : Int
  st_ex_atime : Timespec
  st_ex_mtime : Timespec
  st_ex_ctime : Timespec
  st_ex_btime : Timespec
  st_ex_blksize : Int
  st_ex_blocks : Int
deriving DecidableEq

/-- `smb_stat_ex_from_stat` (lines 50-74); `statHaveNsec` models the compile-time
`STAT_HAVE_NSEC` conditional. -/
def smb_stat_ex_from_stat (statHaveNsec : Bool) (src : CStat) : StatEx :=
  { st_ex_dev := src.st_dev
    st_ex_ino := src.st_ino
    st_ex_mode := src.st_mode
    st_ex_nlink := src.st_nlink
    st_ex_uid := src.st_uid
    st_ex_gid := src.st_gid
    st_ex_rdev := src.st_rdev
    st_ex_size := src.st_size
    st_ex_atime := ⟨src.st_atime, if statHaveNsec then src.st_atime_nsec else 0⟩
    st_ex_mtime := ⟨src.st_mtime, if statHaveNsec then src.st_mtime_nsec else 0⟩
    st_ex_ctime := ⟨src.st_ctime, if statHaveNsec then src.st_ctime_nsec else 0⟩
    st_ex_btime := ⟨src.st_mtime, if statHaveNsec then src.st_mtime_nsec else 0⟩
    st_ex_blksize := src.st_blksize
    st_ex_blocks := src.st_blocks }

-- ===== Connection cache (glfs_preopened list, lines 76-247) =====

/-- One node of the process-wide `struct glfs_preopened` list. The opaque
`glfs_t *` session handle is modelled as a `Nat` identifier. -/
structure Preopened where
  volume : String
  connectpath : String
  fs : Nat
  ref : Nat
deriving DecidableEq

/-- Process-wide state touched by the connection cache: the `glfs_preopened`
list, a supply of fresh backend session handles (`glfs_new`), and the
sessions torn down so far (`glfs_fini` calls, in order). -/
structure GlfsState where
  cache : List Preopened
  nextFs : Nat
  finied : List Nat
deriving DecidableEq

/-- Lookup key of a cache node. -/
def cacheKey (e : Preopened) : String × String := (e.volume, e.connectpath)

/-- `glfs_find_preopened` (lines 119-133) on the cache list: first node whose
volume and connectpath both compare equal with `strcmp` gets its reference
count incremented and its session returned. -/
def findIncr (v p : String) : List Preopened → Option (Nat × List Preopened)
  | [] => none
  | e :: rest =>
    if e.volume = v ∧ e.connectpath = p then
      some (e.fs, { e with ref := e.ref + 1 } :: rest)
    else
      (findIncr v p rest).map fun r => (r.1, e :: r.2)

/-- `glfs_set_preopened` (lines 87-117), success path: a node with reference
count 1 is prepended (`DLIST_ADD`). -/
def glfs_set_preopened (v p : String) (fs : Nat) (st : GlfsState) : GlfsState :=
  { st with cache := ⟨v, p, fs, 1⟩ :: st.cache }

/-- Loop body of `glfs_clear_preopened` (lines 135-150) over the cache list:
at a node holding `f` the count is decremented; if it is still nonzero the scan
returns, otherwise the node is unlinked, `glfs_fini(f)` runs (second component)
and the scan continues. (Nodes are created with `ref = 1`, so `ref - 1` in `Nat`
matches the C predecrement on every reachable state.) -/
def clearList (f : Nat) : List Preopened → List Preopened × List Nat
  | [] => ([], [])
  | e :: rest =>
    if e.fs = f then
      if e.ref - 1 ≠ 0 then ({ e with ref := e.ref - 1 } :: rest, [])
      else
        let r := clearList f rest
        (r.1, f :: r.2)
    else
      let r := clearList f rest
      (e :: r.1, r.2)

/-- `glfs_clear_preopened` acting on the process state. -/
def glfs_clear_preopened (st : GlfsState) (f : Nat) : GlfsState :=
  { cache := (clearList f st.cache).1
    nextFs := st.nextFs
    finied := st.finied ++ (clearList f st.cache).2 }

/-- Which step of `vfs_gluster_connect` fails, if any: `glfs_new`,
`glfs_set_volfile_server`, `glfs_set_xlator_option`, `glfs_set_logging`,
`glfs_init`, or `glfs_set_preopened` (allocation failure). -/
inductive ConnectOutcome where
  | newFail
  | volfileFail
  | xlatorFail
  | loggingFail
  | initFail
  | setPreopenedFail
  | success
deriving DecidableEq

/-- `vfs_gluster_connect` (lines 154-238). A cache hit returns the shared
session at once. On a miss, `glfs_new` yields the fresh handle `st.nextFs`;
if any later step fails the function reaches `done:` with `ret < 0`, calls
`glfs_fini(fs)` and returns -1 (`none`) — `glfs_set_preopened`'s failure path
leaves the list untouched. On full success the session is registered with
reference count 1 and stored in `handle->data` (the returned handle). -/
def vfs_gluster_connect (v p : String) (o : ConnectOutcome) (st : GlfsState) :
    Option Nat × GlfsState :=
  match findIncr v p st.cache with
  | some (fs, cache') => (some fs, { st with cache := cache' })
  | none =>
    match o with
    | .newFail => (none, st)
    | .success =>
      (some st.nextFs,
       { cache := ⟨v, p, st.nextFs, 1⟩ :: st.cache
         nextFs := st.nextFs + 1
         finied := st.finied })
    | _ =>
      (none,
       { cache := st.cache
         nextFs := st.nextFs + 1
         finied := st.finied ++ [st.nextFs] })

/-- `vfs_gluster_disconnect` (lines 240-247): releases `handle->data`. -/
def vfs_gluster_disconnect (st : GlfsState) (fs : Nat) : GlfsState :=
  glfs_clear_preopened st fs

/-- Cache invariant maintained by the module: lookup keys are unique (at most
one live session per (volume, path)), session handles are unique, and every
cached handle was produced by an earlier `glfs_new`. -/
def CacheInv (st : GlfsState) : Prop :=
  (st.cache.map cacheKey).Nodup ∧
  (st.cache.map Preopened.fs).Nodup ∧
  ∀ e ∈ st.cache, e.fs < st.nextFs

-- ===== Directory enumeration (vfs_gluster_readdir, lines 362-394) =====

/-- Fields of a `struct dirent` copied by `vfs_gluster_readdir`. -/
structure DirentRec where
  d_ino : Int
  d_off : Int
  d_reclen : Int
  d_type : Int
  d_name : String
deriving DecidableEq

/-- `vfs_gluster_readdir` (lines 362-394), as a function of the backend call's
outcome: `ret` is the return code of `glfs_readdir_r`/`glfs_readdirplus_r` and
`dirent` the entry it produced (`none` at end of stream). The function returns
NULL (`none`) whenever `ret < 0` or the entry is NULL; otherwise it copies the
entry (`strncpy(result.d_name, dirent->d_name, 256)`). -/
def vfs_gluster_readdir (ret : Int) (dirent : Option DirentRec) : Option DirentRec :=
  if ret < 0 then none
  else
    match dirent with
    | none => none
    | some d =>
      some { d_ino := d.d_ino
             d_off := d.d_off
             d_reclen := d.d_reclen
             d_type := d.d_type
             d_name := d.d_name.take 256 }

-- ===== Case-insensitive name resolution (lines 799-829) =====

/-- `NAME_MAX` of the platform headers. -/
def NAME_MAX : Nat := 255

def ENAMETOOLONG : Nat := 36
def ENODATA : Nat := 61
def EOPNOTSUPP : Nat := 95

/-- Attribute key built by `vfs_gluster_get_real_filename`'s `snprintf`.
The destination buffer has `NAME_MAX + 64 = 319` bytes while the formatted
string is at most 32 + 1 + 254 + 1 bytes under the length guard, so the
`snprintf` never truncates. -/
def grf_key (name : String) : String := "user.glusterfs.get_real_filename:" ++ name

/-- `vfs_gluster_get_real_filename` (lines 799-829). `getxattr` models the
`glfs_getxattr` backend call (error code or value). The first result component
is the returned name or the errno of a -1 return; the second is the attribute
key passed to the backend, `none` when the backend was never called. The
`talloc_strdup` allocation is modelled as succeeding. -/
def vfs_gluster_get_real_filename (name : String)
    (getxattr : String → Except Nat String) : Except Nat String × Option String :=
  if name.length ≥ NAME_MAX then (.error ENAMETOOLONG, none)
  else
    match getxattr (grf_key name) with
    | .error e => (.error (if e = ENODATA then EOPNOTSUPP else e),
                   some (grf_key name))
    | .ok v => (.ok v, some (grf_key name))

-- ===== File open/close and the fsp extension (lines 429-462) =====

/-- `O_CREAT` of the platform headers (Linux). -/
def O_CREAT : Nat := 64

/-- `O_DIRECTORY` of the platform headers (Linux). -/
def O_DIRECTORY : Nat := 65536

/-- The per-file-object extension slot (`VFS_ADD/FETCH/REMOVE_FSP_EXTENSION`)
holding the backend `glfs_fd_t *`, modelled as a `Nat` descriptor. -/
structure FilesStruct where
  ext : Option Nat
deriving DecidableEq

/-- `vfs_gluster_open` (lines 429-453): the backend call is chosen by the flag
bits (`glfs_opendir`, `glfs_creat` or `glfs_open`, whose results are the three
`Option Nat` parameters); on NULL the call fails with -1, otherwise the
descriptor goes into the fsp extension and the fixed constant 13371337 is
returned ("An arbitrary value for error reporting, so you know its us."). -/
def open_branch (opendirRes creatRes openRes : Option Nat) (flags : Nat) :
    Option Nat :=
  if flags &&& O_DIRECTORY ≠ 0 then opendirRes
  else if flags &&& O_CREAT ≠ 0 then creatRes
  else openRes

def vfs_gluster_open (opendirRes creatRes openRes : Option Nat) (flags : Nat)
    (fsp : FilesStruct) : Int × FilesStruct :=
  match open_branch opendirRes creatRes openRes flags with
  | none => (-1, fsp)
  | some g => (13371337, { ext := some g })

/-- `vfs_gluster_read` (lines 464-468): the descriptor handed to `glfs_read` is
fetched from the fsp extension. -/
def vfs_gluster_read (fsp : FilesStruct) : Option Nat := fsp.ext

/-- `vfs_gluster_fstat` (lines 544-559): the descriptor handed to `glfs_fstat`
is fetched from the fsp extension. -/
def vfs_gluster_fstat (fsp : FilesStruct) : Option Nat := fsp.ext

/-- `vfs_gluster_close` (lines 455-462): fetches the descriptor, removes the
extension, then hands the descriptor to `glfs_close`. The first component is
the descriptor closed, the second the file object afterwards. -/
def vfs_gluster_close (fsp : FilesStruct) : Option Nat × FilesStruct :=
  (fsp.ext, { ext := none })

-- ===== Derived definitions for the ACL round-trip analysis =====

/-- The entry produced by the decode loop for one wire record whose tag is
recognized: the mirror at record level of the loop body of
`gluster_to_smb_acl` (lines 1062-1114). -/
def glusterAceToSmb (a : GlusterAce) : SmbAce :=
  { a_type := (smb_tag_of_gluster a.tag).getD .USER_OBJ
    uid := if (smb_tag_of_gluster a.tag).getD .USER_OBJ = .USER then a.id else 0
    gid := if (smb_tag_of_gluster a.tag).getD .USER_OBJ = .GROUP then a.id else 0
    a_perm := smb_perm_of_gluster a.perm }

/-- Well-formedness of a wire record: recognized tag and fields within their C
integer types; every record built by the encoder satisfies this. -/
def validAce (a : GlusterAce) : Prop :=
  (smb_tag_of_gluster a.tag).isSome ∧ a.tag < 65536 ∧ a.perm < 65536 ∧
  a.id < 4294967296

/-- Sort key of an entry as the spec words it: the (kind tag, identifier)
pair, with the encoder's identifier (named id, or the undefined-id marker). -/
def ace_key (e : SmbAce) : Nat × Nat := (acl_tag_value e.a_type, acl_entry_id e)

/-- Ordering taken verbatim from the spec sentence "sorted by (kind,
identifier) ascending": lexicographic on the (tag value, identifier) pair. -/
def specKeyLe (e1 e2 : SmbAce) : Prop :=
  acl_tag_value e1.a_type < acl_tag_value e2.a_type ∨
  (acl_tag_value e1.a_type = acl_tag_value e2.a_type ∧
    acl_entry_id e1 ≤ acl_entry_id e2)

instance specKeyLeDec (e1 e2 : SmbAce) : Decidable (specKeyLe e1 e2) := by
  unfold specKeyLe
  exact inferInstance

/-- Insertion sort step for the spec-side ascending (kind, identifier) order. -/
def spec_insert (a : SmbAce) : List SmbAce → List SmbAce
  | [] => [a]
  | b :: l => if specKeyLe a b then a :: b :: l else b :: spec_insert a l

/-- The spec-side canonical order: entries sorted ascending by
(kind tag, identifier). -/
def spec_sort_acl (l : List SmbAce) : List SmbAce := l.foldr spec_insert []

/-- The identifier the claim talks about: present for named users and named
groups only. -/
def namedId (e : SmbAce) : Option Nat :=
  match e.a_type with
  | .USER => some e.uid
  | .GROUP => some e.gid
  | _ => none

/-- The observable part of an entry under claim C1: principal kind, identifier
for named kinds, and the three permission bits. (The uid/gid of non-named
entries are malloc garbage in the decoder and not observable.) -/
def aceView (e : SmbAce) : SmbTag × Option Nat × Bool × Bool × Bool :=
  (e.a_type, namedId e, e.a_perm &&& SMB_ACL_READ != 0,
   e.a_perm &&& SMB_ACL_WRITE != 0, e.a_perm &&& SMB_ACL_EXECUTE != 0)

-- ===== Helper lemmas =====

theorem length_ace_to_xattr (a : GlusterAce) : (ace_to_xattr a).length = 8 := rfl

theorem length_flatMap_ace (l : List GlusterAce) :
    (l.flatMap ace_to_xattr).length = 8 * l.length := by
  induction l with
  | nil => rfl
  | cons a l ih =>
    rw [List.flatMap_cons, List.length_append, length_ace_to_xattr, ih,
      List.length_cons]
    ring

theorem length_qsort_insert (a : GlusterAce) (l : List GlusterAce) :
    (qsort_insert a l).length = l.length + 1 := by
  induction l with
  | nil => rfl
  | cons b l ih =>
    rw [qsort_insert]
    split <;> simp [ih]

theorem length_normalize (l : List GlusterAce) :
    (gluster_acl_normalize l).length = l.length := by
  rw [gluster_acl_normalize]
  induction l with
  | nil => rfl
  | cons a l ih => simp [List.foldr_cons, length_qsort_insert, ih]

theorem length_to_xattr (l : List GlusterAce) :
    (gluster_acl_to_xattr l).length = 4 + 8 * l.length := by
  rw [gluster_acl_to_xattr, List.length_append, length_flatMap_ace]
  rfl

/-- Version field of a blob, as read by `IVAL(&hdr->version, 0)`. -/
def blob_version (buf : List Nat) : Nat :=
  rd32 (buf.getD 0 0) (buf.getD 1 0) (buf.getD 2 0) (buf.getD 3 0)

/-- The tag fields of the packed 8-byte entry records of a blob body, each read
with `SVAL(&ace->tag, 0)`. -/
def record_tags : List Nat → List Nat
  | t0 :: t1 :: _ :: _ :: _ :: _ :: _ :: _ :: rest => rd16 t0 t1 :: record_tags rest
  | _ => []

theorem decode_aces_tags_some :
    (rest : List Nat) → (l : List SmbAce) → decode_aces rest = some l →
    ∀ t ∈ record_tags rest, smb_tag_of_gluster t ≠ none
  | [], _, _ => by
    intro t ht
    simp [record_tags] at ht
  | t0 :: t1 :: p0 :: p1 :: i0 :: i1 :: i2 :: i3 :: rest', l, h => by
    intro t ht
    simp only [record_tags, List.mem_cons] at ht
    simp only [decode_aces] at h
    cases htag : smb_tag_of_gluster (rd16 t0 t1) with
    | none =>
      rw [htag] at h
      exact Option.noConfusion h
    | some ty =>
      rw [htag] at h
      cases hrest : decode_aces rest' with
      | none =>
        rw [hrest] at h
        exact Option.noConfusion h
      | some es =>
        rcases ht with rfl | ht
        · rw [htag]
          exact fun hc => Option.noConfusion hc
        · exact decode_aces_tags_some rest' es hrest t ht
  | [_], _, h => Option.noConfusion h
  | [_, _], _, h => Option.noConfusion h
  | [_, _, _], _, h => Option.noConfusion h
  | [_, _, _, _], _, h => Option.noConfusion h
  | [_, _, _, _, _], _, h => Option.noConfusion h
  | [_, _, _, _, _, _], _, h => Option.noConfusion h
  | [_, _, _, _, _, _, _], _, h => Option.noConfusion h

theorem rd16_le16 (m : Nat) (h : m < 65536) :
    rd16 (m % 256) (m / 256 % 256) = m := by
  rw [rd16]
  omega

theorem rd32_le32 (m : Nat) (h : m < 4294967296) :
    rd32 (m % 256) (m / 256 % 256) (m / 65536 % 256) (m / 16777216 % 256)
      = m := by
  rw [rd32]
  omega

theorem decode_aces_xattr (l : List GlusterAce) (hv : ∀ a ∈ l, validAce a) :
    decode_aces (l.flatMap ace_to_xattr) = some (l.map glusterAceToSmb) := by
  induction l with
  | nil => rfl
  | cons a l ih =>
    obtain ⟨hsome, htag, hperm, hid⟩ := hv a (List.mem_cons_self _ _)
    obtain ⟨ty, hty⟩ := Option.isSome_iff_exists.mp hsome
    have h16t : rd16 ((a.tag % 65536) % 256) ((a.tag % 65536) / 256 % 256)
        = a.tag := by
      rw [rd16_le16 (a.tag % 65536) (Nat.mod_lt _ (by norm_num))]
      exact Nat.mod_eq_of_lt htag
    have h16p : rd16 ((a.perm % 65536) % 256) ((a.perm % 65536) / 256 % 256)
        = a.perm := by
      rw [rd16_le16 (a.perm % 65536) (Nat.mod_lt _ (by norm_num))]
      exact Nat.mod_eq_of_lt hperm
    have h32 : rd32 ((a.id % 4294967296) % 256) ((a.id % 4294967296) / 256 % 256)
        ((a.id % 4294967296) / 65536 % 256) ((a.id % 4294967296) / 16777216 % 256)
        = a.id := by
      rw [rd32_le32 (a.id % 4294967296) (Nat.mod_lt _ (by norm_num))]
      exact Nat.mod_eq_of_lt hid
    have hbytes : (a :: l).flatMap ace_to_xattr
        = (a.tag % 65536) % 256 :: ((a.tag % 65536) / 256 % 256)
          :: ((a.perm % 65536) % 256) :: ((a.perm % 65536) / 256 % 256)
          :: ((a.id % 4294967296) % 256) :: ((a.id % 4294967296) / 256 % 256)
          :: ((a.id % 4294967296) / 65536 % 256)
          :: ((a.id % 4294967296) / 16777216 % 256)
          :: l.flatMap ace_to_xattr := by
      simp [ace_to_xattr, le16, le32]
    rw [hbytes]
    simp only [decode_aces, h16t, h16p, h32, hty,
      ih (fun a ha => hv a (List.mem_cons_of_mem _ ha))]
    simp [glusterAceToSmb, hty]

theorem gluster_to_smb_acl_xattr (l : List GlusterAce)
    (hv : ∀ a ∈ l, validAce a) :
    gluster_to_smb_acl (gluster_acl_to_xattr l)
      = some (l.map glusterAceToSmb) := by
  have h1 : gluster_acl_to_xattr l
      = 2 :: 0 :: 0 :: 0 :: l.flatMap ace_to_xattr := by
    simp [gluster_acl_to_xattr, le32, GLUSTER_ACL_VERSION]
  have hc1 : (((2 : Nat) :: 0 :: 0 :: 0 :: l.flatMap ace_to_xattr).length - 4)
      % 8 = 0 := by
    have h8 := length_flatMap_ace l
    rw [List.length_cons, List.length_cons, List.length_cons, List.length_cons,
      h8]
    omega
  rw [h1]
  simp only [gluster_to_smb_acl]
  rw [if_neg (not_not_intro hc1),
    if_neg (not_not_intro (show rd32 2 0 0 0 = GLUSTER_ACL_VERSION by decide))]
  exact decode_aces_xattr l hv

theorem mem_qsort_insert (a c : GlusterAce) (l : List GlusterAce) :
    c ∈ qsort_insert a l ↔ c = a ∨ c ∈ l := by
  induction l with
  | nil => simp [qsort_insert]
  | cons b l ih =>
    rw [qsort_insert]
    split
    · simp [List.mem_cons]
    · simp only [List.mem_cons, ih]
      tauto

theorem mem_normalize (c : GlusterAce) (l : List GlusterAce) :
    c ∈ gluster_acl_normalize l ↔ c ∈ l := by
  rw [gluster_acl_normalize]
  induction l with
  | nil => simp
  | cons a l ih => simp [List.foldr_cons, mem_qsort_insert, ih, List.mem_cons]

theorem mem_spec_insert (a c : SmbAce) (l : List SmbAce) :
    c ∈ spec_insert a l ↔ c = a ∨ c ∈ l := by
  induction l with
  | nil => simp [spec_insert]
  | cons b l ih =>
    rw [spec_insert]
    split
    · simp [List.mem_cons]
    · simp only [List.mem_cons, ih]
      tauto

theorem mem_spec_sort (c : SmbAce) (l : List SmbAce) :
    c ∈ spec_sort_acl l ↔ c ∈ l := by
  rw [spec_sort_acl]
  induction l with
  | nil => simp
  | cons a l ih => simp [List.foldr_cons, mem_spec_insert, ih, List.mem_cons]

theorem acl_tag_value_lt (t : SmbTag) : acl_tag_value t < 65536 := by
  cases t <;> decide

theorem acl_tag_value_inj (t1 t2 : SmbTag)
    (h : acl_tag_value t1 = acl_tag_value t2) : t1 = t2 := by
  cases t1 <;> cases t2 <;> revert h <;> decide

theorem gluster_perm_of_lt (p : Nat) : gluster_perm_of p < 65536 := by
  rw [gluster_perm_of]
  split <;> split <;> split <;> decide

theorem validAce_smbAceToGluster (e : SmbAce) :
    validAce (smbAceToGluster e) := by
  obtain ⟨t, u, g, pm⟩ := e
  refine ⟨?_, acl_tag_value_lt t, gluster_perm_of_lt pm, ?_⟩
  · cases t <;> rfl
  · cases t <;>
      first
        | exact Nat.mod_lt _ (by norm_num)
        | exact show (4294967295 : Nat) < 4294967296 by norm_num

theorem int32_usub_le_iff (i1 i2 : Nat) (h1 : i1 < 2147483648)
    (h2 : i2 < 2147483648) :
    (int32 (usub32 i1 i2) ≤ 0 ↔ i1 ≤ i2) := by
  rw [int32, usub32]
  split <;> omega

theorem cmp_agree (e1 e2 : SmbAce)
    (h1u : e1.a_type = .USER → e1.uid < 2147483648)
    (h1g : e1.a_type = .GROUP → e1.gid < 2147483648)
    (h2u : e2.a_type = .USER → e2.uid < 2147483648)
    (h2g : e2.a_type = .GROUP → e2.gid < 2147483648) :
    (gluster_ace_cmp (smbAceToGluster e1) (smbAceToGluster e2) ≤ 0
      ↔ specKeyLe e1 e2) := by
  have hm1 := Nat.mod_eq_of_lt (acl_tag_value_lt e1.a_type)
  have hm2 := Nat.mod_eq_of_lt (acl_tag_value_lt e2.a_type)
  simp only [gluster_ace_cmp, smbAceToGluster, hm1, hm2]
  split
  next heq =>
    have ht : acl_tag_value e1.a_type = acl_tag_value e2.a_type := by omega
    have hty : e1.a_type = e2.a_type := acl_tag_value_inj _ _ ht
    rw [specKeyLe]
    rw [ht]
    simp only [lt_irrefl, false_or, true_and]
    cases hca : e1.a_type with
    | USER =>
      have hcb : e2.a_type = .USER := by rw [← hty, hca]
      have hb1 : e1.uid < 2147483648 := h1u hca
      have hb2 : e2.uid < 2147483648 := h2u hcb
      have hlt1 : e1.uid < 4294967296 := by omega
      have hlt2 : e2.uid < 4294967296 := by omega
      have hi1 : acl_entry_id e1 = e1.uid := by
        simp [acl_entry_id, hca, Nat.mod_eq_of_lt hlt1]
      have hi2 : acl_entry_id e2 = e2.uid := by
        simp [acl_entry_id, hcb, Nat.mod_eq_of_lt hlt2]
      rw [hi1, hi2]
      exact int32_usub_le_iff _ _ hb1 hb2
    | GROUP =>
      have hcb : e2.a_type = .GROUP := by rw [← hty, hca]
      have hb1 : e1.gid < 2147483648 := h1g hca
      have hb2 : e2.gid < 2147483648 := h2g hcb
      have hlt1 : e1.gid < 4294967296 := by omega
      have hlt2 : e2.gid < 4294967296 := by omega
      have hi1 : acl_entry_id e1 = e1.gid := by
        simp [acl_entry_id, hca, Nat.mod_eq_of_lt hlt1]
      have hi2 : acl_entry_id e2 = e2.gid := by
        simp [acl_entry_id, hcb, Nat.mod_eq_of_lt hlt2]
      rw [hi1, hi2]
      exact int32_usub_le_iff _ _ hb1 hb2
    | USER_OBJ =>
      have hcb : e2.a_type = .USER_OBJ := by rw [← hty, hca]
      have hi1 : acl_entry_id e1 = GLUSTER_ACL_UNDEFINED_ID := by
        simp [acl_entry_id, hca]
      have hi2 : acl_entry_id e2 = GLUSTER_ACL_UNDEFINED_ID := by
        simp [acl_entry_id, hcb]
      rw [hi1, hi2]
      exact ⟨fun _ => le_refl _, fun _ => by decide⟩
    | GROUP_OBJ =>
      have hcb : e2.a_type = .GROUP_OBJ := by rw [← hty, hca]
      have hi1 : acl_entry_id e1 = GLUSTER_ACL_UNDEFINED_ID := by
        simp [acl_entry_id, hca]
      have hi2 : acl_entry_id e2 = GLUSTER_ACL_UNDEFINED_ID := by
        simp [acl_entry_id, hcb]
      rw [hi1, hi2]
      exact ⟨fun _ => le_refl _, fun _ => by decide⟩
    | MASK =>
      have hcb : e2.a_type = .MASK := by rw [← hty, hca]
      have hi1 : acl_entry_id e1 = GLUSTER_ACL_UNDEFINED_ID := by
        simp [acl_entry_id, hca]
      have hi2 : acl_entry_id e2 = GLUSTER_ACL_UNDEFINED_ID := by
        simp [acl_entry_id, hcb]
      rw [hi1, hi2]
      exact ⟨fun _ => le_refl _, fun _ => by decide⟩
    | OTHER =>
      have hcb : e2.a_type = .OTHER := by rw [← hty, hca]
      have hi1 : acl_entry_id e1 = GLUSTER_ACL_UNDEFINED_ID := by
        simp [acl_entry_id, hca]
      have hi2 : acl_entry_id e2 = GLUSTER_ACL_UNDEFINED_ID := by
        simp [acl_entry_id, hcb]
      rw [hi1, hi2]
      exact ⟨fun _ => le_refl _, fun _ => by decide⟩
  next hne =>
    have ht : acl_tag_value e1.a_type ≠ acl_tag_value e2.a_type := by
      intro hc
      apply hne
      rw [hc]
      ring
    rw [specKeyLe]
    omega

theorem qsort_insert_map (x : SmbAce) (m : List SmbAce)
    (hag : ∀ b ∈ m,
      (gluster_ace_cmp (smbAceToGluster x) (smbAceToGluster b) ≤ 0
        ↔ specKeyLe x b)) :
    qsort_insert (smbAceToGluster x) (m.map smbAceToGluster)
      = (spec_insert x m).map smbAceToGluster := by
  induction m with
  | nil => rfl
  | cons b m ih =>
    rw [List.map_cons, qsort_insert, spec_insert]
    by_cases hsp : specKeyLe x b
    · rw [if_pos ((hag b (List.mem_cons_self _ _)).mpr hsp), if_pos hsp,
        List.map_cons, List.map_cons]
    · rw [if_neg (fun hc => hsp ((hag b (List.mem_cons_self _ _)).mp hc)),
        if_neg hsp, List.map_cons,
        ih (fun c hc => hag c (List.mem_cons_of_mem _ hc))]

theorem normalize_cons (a : GlusterAce) (l : List GlusterAce) :
    gluster_acl_normalize (a :: l) = qsort_insert a (gluster_acl_normalize l) :=
  rfl

theorem spec_sort_cons (a : SmbAce) (l : List SmbAce) :
    spec_sort_acl (a :: l) = spec_insert a (spec_sort_acl l) :=
  rfl

theorem normalize_map_spec_sort (l : List SmbAce)
    (hag : ∀ a ∈ l, ∀ b ∈ l,
      (gluster_ace_cmp (smbAceToGluster a) (smbAceToGluster b) ≤ 0
        ↔ specKeyLe a b)) :
    gluster_acl_normalize (l.map smbAceToGluster)
      = (spec_sort_acl l).map smbAceToGluster := by
  induction l with
  | nil => rfl
  | cons x l ih =>
    rw [List.map_cons, normalize_cons, spec_sort_cons,
      ih (fun a ha b hb =>
        hag a (List.mem_cons_of_mem _ ha) b (List.mem_cons_of_mem _ hb))]
    exact qsort_insert_map x (spec_sort_acl l)
      (fun b hb => hag x (List.mem_cons_self _ _) b
        (List.mem_cons_of_mem _ ((mem_spec_sort b l).mp hb)))

theorem and_four_cases (p : Nat) : p &&& 4 = 0 ∨ p &&& 4 = 4 := by
  have h := Nat.and_two_pow p 2
  cases hb : p.testBit 2 <;> rw [hb] at h <;> simp at h <;> omega

theorem and_two_cases (p : Nat) : p &&& 2 = 0 ∨ p &&& 2 = 2 := by
  have h := Nat.and_two_pow p 1
  cases hb : p.testBit 1 <;> rw [hb] at h <;> simp at h <;> omega

theorem and_one_cases (p : Nat) : p &&& 1 = 0 ∨ p &&& 1 = 1 := by
  rw [Nat.and_one_is_mod]
  omega

theorem perm_bits_roundtrip (pm : Nat) :
    (smb_perm_of_gluster (gluster_perm_of pm) &&& SMB_ACL_READ != 0)
      = (pm &&& SMB_ACL_READ != 0) ∧
    (smb_perm_of_gluster (gluster_perm_of pm) &&& SMB_ACL_WRITE != 0)
      = (pm &&& SMB_ACL_WRITE != 0) ∧
    (smb_perm_of_gluster (gluster_perm_of pm) &&& SMB_ACL_EXECUTE != 0)
      = (pm &&& SMB_ACL_EXECUTE != 0) := by
  rcases and_four_cases pm with h4 | h4 <;>
    rcases and_two_cases pm with h2 | h2 <;>
    rcases and_one_cases pm with h1 | h1 <;>
    simp [gluster_perm_of, smb_perm_of_gluster, SMB_ACL_READ, SMB_ACL_WRITE,
      SMB_ACL_EXECUTE, GLUSTER_ACL_READ, GLUSTER_ACL_WRITE,
      GLUSTER_ACL_EXECUTE, h4, h2, h1] <;>
    decide

theorem aceView_roundtrip (e : SmbAce)
    (hU : e.a_type = .USER → e.uid < 2147483648)
    (hG : e.a_type = .GROUP → e.gid < 2147483648) :
    aceView (glusterAceToSmb (smbAceToGluster e)) = aceView e := by
  obtain ⟨hb1, hb2, hb3⟩ := perm_bits_roundtrip e.a_perm
  cases hca : e.a_type with
  | USER =>
    have hu : e.uid < 2147483648 := hU hca
    have hlt : e.uid < 4294967296 := by omega
    have hg2s : glusterAceToSmb (smbAceToGluster e)
        = ⟨.USER, e.uid, 0, smb_perm_of_gluster (gluster_perm_of e.a_perm)⟩ := by
      simp [smbAceToGluster, glusterAceToSmb, acl_tag_value, acl_entry_id, hca,
        smb_tag_of_gluster, GLUSTER_ACL_USER, GLUSTER_ACL_USER_OBJ,
        GLUSTER_ACL_GROUP, GLUSTER_ACL_GROUP_OBJ, GLUSTER_ACL_OTHER,
        GLUSTER_ACL_MASK]
      exact hlt
    rw [hg2s]
    simp [aceView, namedId, hca, hb1, hb2, hb3]
  | GROUP =>
    have hg : e.gid < 2147483648 := hG hca
    have hlt : e.gid < 4294967296 := by omega
    have hg2s : glusterAceToSmb (smbAceToGluster e)
        = ⟨.GROUP, 0, e.gid, smb_perm_of_gluster (gluster_perm_of e.a_perm)⟩ := by
      simp [smbAceToGluster, glusterAceToSmb, acl_tag_value, acl_entry_id, hca,
        smb_tag_of_gluster, GLUSTER_ACL_USER, GLUSTER_ACL_USER_OBJ,
        GLUSTER_ACL_GROUP, GLUSTER_ACL_GROUP_OBJ, GLUSTER_ACL_OTHER,
        GLUSTER_ACL_MASK]
      exact hlt
    rw [hg2s]
    simp [aceView, namedId, hca, hb1, hb2, hb3]
  | USER_OBJ =>
    have hg2s : glusterAceToSmb (smbAceToGluster e)
        = ⟨.USER_OBJ, 0, 0, smb_perm_of_gluster (gluster_perm_of e.a_perm)⟩ := by
      simp [smbAceToGluster, glusterAceToSmb, acl_tag_value, acl_entry_id, hca,
        smb_tag_of_gluster, GLUSTER_ACL_USER, GLUSTER_ACL_USER_OBJ,
        GLUSTER_ACL_GROUP, GLUSTER_ACL_GROUP_OBJ, GLUSTER_ACL_OTHER,
        GLUSTER_ACL_MASK]
    rw [hg2s]
    simp [aceView, namedId, hca, hb1, hb2, hb3]
  | GROUP_OBJ =>
    have hg2s : glusterAceToSmb (smbAceToGluster e)
        = ⟨.GROUP_OBJ, 0, 0, smb_perm_of_gluster (gluster_perm_of e.a_perm)⟩ := by
      simp [smbAceToGluster, glusterAceToSmb, acl_tag_value, acl_entry_id, hca,
        smb_tag_of_gluster, GLUSTER_ACL_USER, GLUSTER_ACL_USER_OBJ,
        GLUSTER_ACL_GROUP, GLUSTER_ACL_GROUP_OBJ, GLUSTER_ACL_OTHER,
        GLUSTER_ACL_MASK]
    rw [hg2s]
    simp [aceView, namedId, hca, hb1, hb2, hb3]
  | MASK =>
    have hg2s : glusterAceToSmb (smbAceToGluster e)
        = ⟨.MASK, 0, 0, smb_perm_of_gluster (gluster_perm_of e.a_perm)⟩ := by
      simp [smbAceToGluster, glusterAceToSmb, acl_tag_value, acl_entry_id, hca,
        smb_tag_of_gluster, GLUSTER_ACL_USER, GLUSTER_ACL_USER_OBJ,
        GLUSTER_ACL_GROUP, GLUSTER_ACL_GROUP_OBJ, GLUSTER_ACL_OTHER,
        GLUSTER_ACL_MASK]
    rw [hg2s]
    simp [aceView, namedId, hca, hb1, hb2, hb3]
  | OTHER =>
    have hg2s : glusterAceToSmb (smbAceToGluster e)
        = ⟨.OTHER, 0, 0, smb_perm_of_gluster (gluster_perm_of e.a_perm)⟩ := by
      simp [smbAceToGluster, glusterAceToSmb, acl_tag_value, acl_entry_id, hca,
        smb_tag_of_gluster, GLUSTER_ACL_USER, GLUSTER_ACL_USER_OBJ,
        GLUSTER_ACL_GROUP, GLUSTER_ACL_GROUP_OBJ, GLUSTER_ACL_OTHER,
        GLUSTER_ACL_MASK]
    rw [hg2s]
    simp [aceView, namedId, hca, hb1, hb2, hb3]

theorem findIncr_none_iff (v p : String) (c : List Preopened) :
    findIncr v p c = none ↔ ∀ e ∈ c, ¬(e.volume = v ∧ e.connectpath = p) := by
  induction c with
  | nil => simp [findIncr]
  | cons e rest ih =>
    rw [findIncr]
    split
    next hcond =>
      simp only [List.mem_cons]
      constructor
      · intro hc
        exact Option.noConfusion hc
      · intro hall
        exact absurd hcond (hall e (Or.inl rfl))
    next hcond =>
      rw [Option.map_eq_none', ih]
      simp only [List.mem_cons]
      constructor
      · intro hall e' he'
        rcases he' with rfl | he'
        · exact hcond
        · exact hall e' he'
      · intro hall e' he'
        exact hall e' (Or.inr he')

theorem findIncr_some (v p : String) (c : List Preopened) (f : Nat)
    (c' : List Preopened) (h : findIncr v p c = some (f, c')) :
    (∃ e ∈ c, e.volume = v ∧ e.connectpath = p ∧ e.fs = f) ∧
    (∃ e ∈ c', e.volume = v ∧ e.connectpath = p ∧ e.fs = f) ∧
    c'.map cacheKey = c.map cacheKey ∧
    c'.map Preopened.fs = c.map Preopened.fs := by
  induction c generalizing c' with
  | nil => exact Option.noConfusion h
  | cons e rest ih =>
    rw [findIncr] at h
    split at h
    next hcond =>
      rw [Option.some.injEq, Prod.mk.injEq] at h
      obtain ⟨rfl, rfl⟩ := h
      refine ⟨⟨e, List.mem_cons_self _ _, hcond.1, hcond.2, rfl⟩,
        ⟨{ e with ref := e.ref + 1 }, List.mem_cons_self _ _, hcond.1, hcond.2,
          rfl⟩, ?_, ?_⟩ <;> simp [cacheKey]
    next hcond =>
      cases hrest : findIncr v p rest with
      | none =>
        rw [hrest] at h
        exact Option.noConfusion h
      | some r =>
        rw [hrest] at h
        obtain ⟨f0, r'⟩ := r
        rw [Option.map_some', Option.some.injEq, Prod.mk.injEq] at h
        obtain ⟨rfl, rfl⟩ := h
        obtain ⟨⟨e1, he1, h1⟩, ⟨e2, he2, h2⟩, hk, hf⟩ := ih r' hrest
        exact ⟨⟨e1, List.mem_cons_of_mem _ he1, h1⟩,
          ⟨e2, List.mem_cons_of_mem _ he2, h2⟩,
          by simp [hk], by simp [hf]⟩

theorem clearList_key_sublist (f : Nat) (c : List Preopened) :
    ((clearList f c).1.map cacheKey).Sublist (c.map cacheKey) := by
  induction c with
  | nil => simp [clearList]
  | cons e rest ih =>
    rw [clearList]
    split
    · split
      · simp only [List.map_cons]
        exact List.Sublist.refl _
      · simp only [List.map_cons]
        exact List.Sublist.cons _ ih
    · simp only [List.map_cons]
      exact List.Sublist.cons₂ _ ih

theorem clearList_fs_sublist (f : Nat) (c : List Preopened) :
    ((clearList f c).1.map Preopened.fs).Sublist (c.map Preopened.fs) := by
  induction c with
  | nil => simp [clearList]
  | cons e rest ih =>
    rw [clearList]
    split
    · split
      · simp only [List.map_cons]
        exact List.Sublist.refl _
      · simp only [List.map_cons]
        exact List.Sublist.cons _ ih
    · simp only [List.map_cons]
      exact List.Sublist.cons₂ _ ih

theorem cacheInv_connect (v p : String) (o : ConnectOutcome) (st : GlfsState)
    (h : CacheInv st) : CacheInv (vfs_gluster_connect v p o st).2 := by
  obtain ⟨hkeys, hfs, hbound⟩ := h
  cases hfind : findIncr v p st.cache with
  | some r =>
    obtain ⟨f, c'⟩ := r
    obtain ⟨_, _, hk, hf⟩ := findIncr_some v p st.cache f c' hfind
    simp only [vfs_gluster_connect, hfind]
    refine ⟨by rw [hk]; exact hkeys, by rw [hf]; exact hfs, ?_⟩
    intro e he
    have hmem : e.fs ∈ c'.map Preopened.fs := List.mem_map_of_mem _ he
    rw [hf] at hmem
    obtain ⟨e0, he0, he0f⟩ := List.mem_map.mp hmem
    exact he0f ▸ hbound e0 he0
  | none =>
    cases o with
    | newFail =>
      simp only [vfs_gluster_connect, hfind]
      exact ⟨hkeys, hfs, hbound⟩
    | success =>
      simp only [vfs_gluster_connect, hfind]
      refine ⟨?_, ?_, ?_⟩
      · rw [List.map_cons, List.nodup_cons]
        refine ⟨?_, hkeys⟩
        intro hmem
        obtain ⟨e0, he0, he0k⟩ := List.mem_map.mp hmem
        have hno := (findIncr_none_iff v p st.cache).mp hfind e0 he0
        rw [cacheKey, Prod.mk.injEq] at he0k
        exact hno ⟨he0k.1, he0k.2⟩
      · rw [List.map_cons, List.nodup_cons]
        refine ⟨?_, hfs⟩
        intro hmem
        obtain ⟨e0, he0, he0f⟩ := List.mem_map.mp hmem
        exact absurd (he0f ▸ hbound e0 he0) (lt_irrefl _)
      · intro e he
        rcases List.mem_cons.mp he with rfl | he
        · exact Nat.lt_succ_self _
        · exact Nat.lt_succ_of_lt (hbound e he)
    | volfileFail =>
      simp only [vfs_gluster_connect, hfind]
      exact ⟨hkeys, hfs, fun e he => Nat.lt_succ_of_lt (hbound e he)⟩
    | xlatorFail =>
      simp only [vfs_gluster_connect, hfind]
      exact ⟨hkeys, hfs, fun e he => Nat.lt_succ_of_lt (hbound e he)⟩
    | loggingFail =>
      simp only [vfs_gluster_connect, hfind]
      exact ⟨hkeys, hfs, fun e he => Nat.lt_succ_of_lt (hbound e he)⟩
    | initFail =>
      simp only [vfs_gluster_connect, hfind]
      exact ⟨hkeys, hfs, fun e he => Nat.lt_succ_of_lt (hbound e he)⟩
    | setPreopenedFail =>
      simp only [vfs_gluster_connect, hfind]
      exact ⟨hkeys, hfs, fun e he => Nat.lt_succ_of_lt (hbound e he)⟩

theorem cacheInv_clear (st : GlfsState) (f : Nat) (h : CacheInv st) :
    CacheInv (glfs_clear_preopened st f) := by
  obtain ⟨hkeys, hfs, hbound⟩ := h
  refine ⟨(clearList_key_sublist f st.cache).nodup hkeys,
    (clearList_fs_sublist f st.cache).nodup hfs, ?_⟩
  intro e he
  have : e.fs ∈ (clearList f st.cache).1.map Preopened.fs :=
    List.mem_map_of_mem _ he
  have hmem := (clearList_fs_sublist f st.cache).subset this
  obtain ⟨e0, he0, he0f⟩ := List.mem_map.mp hmem
  exact he0f ▸ hbound e0 he0

theorem cacheInv_empty : CacheInv ⟨[], 0, []⟩ :=
  ⟨List.nodup_nil, List.nodup_nil, fun e he => absurd he (List.not_mem_nil e)⟩

theorem mem_of_nodup_map_eq {α β : Type} (g : α → β) (l : List α)
    (h : (l.map g).Nodup) (a b : α) (ha : a ∈ l) (hb : b ∈ l)
    (hg : g a = g b) : a = b := by
  induction l with
  | nil => exact absurd ha (List.not_mem_nil a)
  | cons x rest ih =>
    rw [List.map_cons, List.nodup_cons] at h
    rcases List.mem_cons.mp ha with ha1 | ha2
    · rcases List.mem_cons.mp hb with hb1 | hb2
      · rw [ha1, hb1]
      · subst ha1
        have hm := List.mem_map_of_mem g hb2
        rw [← hg] at hm
        exact absurd hm h.1
    · rcases List.mem_cons.mp hb with hb1 | hb2
      · subst hb1
        have hm := List.mem_map_of_mem g ha2
        rw [hg] at hm
        exact absurd hm h.1
      · exact ih h.2 ha2 hb2

-- ===== Claim theorems =====

/-- Claim C2: `gluster_to_smb_acl` returns no ACL (NULL) whenever the blob is
shorter than the 4-byte header, or the remainder after the header is not a
multiple of the 8-byte record size, or the version field differs from the
single supported version 2, or any record's tag is outside the six recognized
kind values; no partial entry list is ever produced in those cases. -/
theorem decode_rejects_malformed (buf : List Nat)
    (h : buf.length < 4 ∨ (buf.length - 4) % 8 ≠ 0 ∨
         blob_version buf ≠ GLUSTER_ACL_VERSION ∨
         ∃ t ∈ record_tags (buf.drop 4), smb_tag_of_gluster t = none) :
    gluster_to_smb_acl buf = none := by
  rcases buf with _ | ⟨b0, _ | ⟨b1, _ | ⟨b2, _ | ⟨b3, rest⟩⟩⟩⟩
  · rfl
  · rfl
  · rfl
  · rfl
  · simp only [gluster_to_smb_acl]
    by_cases halign : ((b0 :: b1 :: b2 :: b3 :: rest).length - 4) % 8 ≠ 0
    · rw [if_pos halign]
    · rw [if_neg halign]
      by_cases hver : rd32 b0 b1 b2 b3 ≠ GLUSTER_ACL_VERSION
      · rw [if_pos hver]
      · rw [if_neg hver]
        rcases h with hlen | ha | hv | ⟨t, ht, htag⟩
        · exact absurd hlen (by simp [List.length_cons])
        · exact absurd ha halign
        · exact absurd (show rd32 b0 b1 b2 b3 ≠ GLUSTER_ACL_VERSION from hv) hver
        · cases hres : decode_aces rest with
          | none => rfl
          | some l =>
            have hval := decode_aces_tags_some rest l hres t (by simpa using ht)
            exact absurd htag hval

/-- Claim C2 witness: a correctly sized version-2 blob whose single record
carries the unrecognized tag 0 decodes to nothing. -/
theorem decode_rejects_malformed_witness :
    (∃ t ∈ record_tags (([2, 0, 0, 0, 0, 0, 7, 0, 255, 255, 255, 255] :
        List Nat).drop 4), smb_tag_of_gluster t = none) ∧
    gluster_to_smb_acl [2, 0, 0, 0, 0, 0, 7, 0, 255, 255, 255, 255] = none :=
  ⟨by decide,
   decode_rejects_malformed _ (Or.inr (Or.inr (Or.inr (by decide))))⟩

/-- Claim C1 (amended): for entries with unique (kind, identifier) pairs whose
named-user/named-group identifiers are all below 2^31, decoding the encoded
blob yields the entries sorted ascending by (kind tag, identifier), preserving
each entry's kind, named identifier and read/write/execute bits. (For larger
identifiers `gluster_ace_cmp` compares the 32-bit wrapped difference
reinterpreted as a signed int, which reverses some pairs — see the
counterexample — so the unrestricted claim is false.) -/
theorem acl_roundtrip_canonicalizes (entries : List SmbAce)
    (hid : ∀ e ∈ entries, (e.a_type = .USER → e.uid < 2147483648) ∧
                          (e.a_type = .GROUP → e.gid < 2147483648))
    (huniq : (entries.map ace_key).Nodup) :
    ∃ bytes decoded,
      smb_to_gluster_acl entries true (4 + entries.length * 8) = .ok bytes ∧
      gluster_to_smb_acl bytes = some decoded ∧
      decoded.map aceView = (spec_sort_acl entries).map aceView := by
  refine ⟨gluster_acl_to_xattr (gluster_acl_normalize
      (entries.map smbAceToGluster)),
    (gluster_acl_normalize (entries.map smbAceToGluster)).map glusterAceToSmb,
    ?_, ?_, ?_⟩
  · simp [smb_to_gluster_acl]
  · apply gluster_to_smb_acl_xattr
    intro a ha
    rw [mem_normalize] at ha
    obtain ⟨e, _, rfl⟩ := List.mem_map.mp ha
    exact validAce_smbAceToGluster e
  · rw [normalize_map_spec_sort entries
      (fun a ha b hb => cmp_agree a b (hid a ha).1 (hid a ha).2
        (hid b hb).1 (hid b hb).2)]
    rw [List.map_map, List.map_map]
    apply List.map_congr_left
    intro e he
    have hmem : e ∈ entries := (mem_spec_sort e entries).mp he
    exact aceView_roundtrip e (hid e hmem).1 (hid e hmem).2

/-- Claim C1 counterexample: the claim as stated (decode∘encode sorts ascending
by (kind, identifier)) fails. The two named-user entries with identifiers 0 and
4294967295 have unique (kind, identifier) pairs, yet the comparator's wrapped
32-bit id subtraction orders 4294967295 before 0, so the decoded sequence is
the reverse of the ascending order the claim demands. -/
theorem acl_roundtrip_counterexample :
    (([⟨.USER, 0, 0, 7⟩, ⟨.USER, 4294967295, 0, 7⟩] : List SmbAce).map
        ace_key).Nodup ∧
    smb_to_gluster_acl [⟨.USER, 0, 0, 7⟩, ⟨.USER, 4294967295, 0, 7⟩] true 20
      = .ok [2, 0, 0, 0, 2, 0, 7, 0, 255, 255, 255, 255, 2, 0, 7, 0,
             0, 0, 0, 0] ∧
    gluster_to_smb_acl [2, 0, 0, 0, 2, 0, 7, 0, 255, 255, 255, 255, 2, 0, 7, 0,
        0, 0, 0, 0]
      = some [⟨.USER, 4294967295, 0, 7⟩, ⟨.USER, 0, 0, 7⟩] ∧
    ([⟨.USER, 4294967295, 0, 7⟩, ⟨.USER, 0, 0, 7⟩] : List SmbAce).map aceView
      ≠ (spec_sort_acl [⟨.USER, 0, 0, 7⟩, ⟨.USER, 4294967295, 0, 7⟩]).map
          aceView := by
  refine ⟨by decide, by decide, by decide, by decide⟩

/-- Claim C1 witness: the amended round trip at a concrete two-entry ACL
(a named user with id 5 and the owning-user entry). -/
theorem acl_roundtrip_canonicalizes_witness :
    (∀ e ∈ ([⟨.USER, 5, 0, 7⟩, ⟨.USER_OBJ, 0, 0, 6⟩] : List SmbAce),
        (e.a_type = .USER → e.uid < 2147483648) ∧
        (e.a_type = .GROUP → e.gid < 2147483648)) ∧
    (∃ bytes decoded,
      smb_to_gluster_acl [⟨.USER, 5, 0, 7⟩, ⟨.USER_OBJ, 0, 0, 6⟩] true
          (4 + ([⟨.USER, 5, 0, 7⟩, ⟨.USER_OBJ, 0, 0, 6⟩] :
            List SmbAce).length * 8) = .ok bytes ∧
      gluster_to_smb_acl bytes = some decoded ∧
      decoded.map aceView
        = (spec_sort_acl [⟨.USER, 5, 0, 7⟩, ⟨.USER_OBJ, 0, 0, 6⟩]).map
            aceView) :=
  ⟨by decide,
   acl_roundtrip_canonicalizes [⟨.USER, 5, 0, 7⟩, ⟨.USER_OBJ, 0, 0, 6⟩]
     (by decide) (by decide)⟩

/-- Claim C4: starting from an empty cache, two successive acquires of the same
(volume, path) key return the same session handle (0) and leave its reference
count at 2; the first release only drops the count to 1 without any teardown;
the second release removes the cache entry and calls `glfs_fini` exactly once.
Moreover acquire and release preserve key uniqueness, so at most one live
session exists per distinct key at any time. -/
theorem connection_sharing (v p : String) (st : GlfsState) (o : ConnectOutcome)
    (f : Nat) (hinv : CacheInv st) :
    ((vfs_gluster_connect v p .success ⟨[], 0, []⟩).1 = some 0 ∧
     (vfs_gluster_connect v p .success
        (vfs_gluster_connect v p .success ⟨[], 0, []⟩).2).1 = some 0 ∧
     (vfs_gluster_connect v p .success
        (vfs_gluster_connect v p .success ⟨[], 0, []⟩).2).2.cache
       = [⟨v, p, 0, 2⟩] ∧
     (glfs_clear_preopened (vfs_gluster_connect v p .success
        (vfs_gluster_connect v p .success ⟨[], 0, []⟩).2).2 0).cache
       = [⟨v, p, 0, 1⟩] ∧
     (glfs_clear_preopened (vfs_gluster_connect v p .success
        (vfs_gluster_connect v p .success ⟨[], 0, []⟩).2).2 0).finied = [] ∧
     (glfs_clear_preopened (glfs_clear_preopened (vfs_gluster_connect v p .success
        (vfs_gluster_connect v p .success ⟨[], 0, []⟩).2).2 0) 0).cache = [] ∧
     (glfs_clear_preopened (glfs_clear_preopened (vfs_gluster_connect v p .success
        (vfs_gluster_connect v p .success ⟨[], 0, []⟩).2).2 0) 0).finied = [0]) ∧
    ((vfs_gluster_connect v p o st).2.cache.map cacheKey).Nodup ∧
    ((glfs_clear_preopened st f).cache.map cacheKey).Nodup := by
  refine ⟨?_, (cacheInv_connect v p o st hinv).1, (cacheInv_clear st f hinv).1⟩
  simp [vfs_gluster_connect, findIncr, glfs_clear_preopened, clearList]

/-- Claim C4 witness: the shared-acquire scenario at the concrete key
("volA", "/path1"): the second acquire leaves the count at 2 and the second
release records exactly one `glfs_fini`. -/
theorem connection_sharing_witness :
    (vfs_gluster_connect "volA" "/path1" ConnectOutcome.success
       (vfs_gluster_connect "volA" "/path1" ConnectOutcome.success
         ⟨[], 0, []⟩).2).2.cache = [⟨"volA", "/path1", 0, 2⟩] ∧
    (glfs_clear_preopened (glfs_clear_preopened
       (vfs_gluster_connect "volA" "/path1" ConnectOutcome.success
         (vfs_gluster_connect "volA" "/path1" ConnectOutcome.success
           ⟨[], 0, []⟩).2).2 0) 0).finied = [0] := by
  have h := connection_sharing "volA" "/path1" ⟨[], 0, []⟩ .success 0
    cacheInv_empty
  exact ⟨h.1.2.2.1, h.1.2.2.2.2.2.2⟩

/-- Claim C5: when `vfs_gluster_connect` misses the cache and any
initialization step fails, the call returns an error, the cache list is
unchanged (no entry left behind), and — unless already `glfs_new` itself
failed, in which case nothing was constructed and the whole state is
untouched — the partially constructed session is torn down by `glfs_fini`. -/
theorem connect_failure_clean (v p : String) (st : GlfsState)
    (o : ConnectOutcome) (ho : o ≠ .success)
    (hmiss : findIncr v p st.cache = none) :
    (vfs_gluster_connect v p o st).1 = none ∧
    (vfs_gluster_connect v p o st).2.cache = st.cache ∧
    (o = .newFail → (vfs_gluster_connect v p o st).2 = st) ∧
    (o ≠ .newFail →
      (vfs_gluster_connect v p o st).2.finied = st.finied ++ [st.nextFs]) := by
  cases o with
  | success => exact absurd rfl ho
  | newFail => simp [vfs_gluster_connect, hmiss]
  | volfileFail => simp [vfs_gluster_connect, hmiss]
  | xlatorFail => simp [vfs_gluster_connect, hmiss]
  | loggingFail => simp [vfs_gluster_connect, hmiss]
  | initFail => simp [vfs_gluster_connect, hmiss]
  | setPreopenedFail => simp [vfs_gluster_connect, hmiss]

/-- Claim C5 witness: a failing `glfs_init` on an empty cache returns an error,
leaves the cache empty and tears the fresh session down. -/
theorem connect_failure_clean_witness :
    (vfs_gluster_connect "volA" "/p" ConnectOutcome.initFail ⟨[], 0, []⟩).1
      = none ∧
    (vfs_gluster_connect "volA" "/p" ConnectOutcome.initFail
       ⟨[], 0, []⟩).2.cache = (⟨[], 0, []⟩ : GlfsState).cache ∧
    (vfs_gluster_connect "volA" "/p" ConnectOutcome.initFail
       ⟨[], 0, []⟩).2.finied = [0] := by
  have h := connect_failure_clean "volA" "/p" ⟨[], 0, []⟩ .initFail
    (by decide) rfl
  exact ⟨h.1, h.2.1, by simpa using h.2.2.2 (by decide)⟩

/-- Claim C6: two immediately successive successful acquires whose keys differ
(in volume or path, under exact string equality) never yield the same session:
on any cache state satisfying the module's invariant the two returned handles
are distinct, and the invariant is preserved. -/
theorem independent_volumes (v1 p1 v2 p2 : String) (st : GlfsState)
    (hkey : (v1, p1) ≠ (v2, p2)) (hinv : CacheInv st) :
    (∃ f1 f2,
      (vfs_gluster_connect v1 p1 .success st).1 = some f1 ∧
      (vfs_gluster_connect v2 p2 .success
         (vfs_gluster_connect v1 p1 .success st).2).1 = some f2 ∧
      f1 ≠ f2) ∧
    CacheInv (vfs_gluster_connect v2 p2 .success
       (vfs_gluster_connect v1 p1 .success st).2).2 := by
  refine ⟨?_, cacheInv_connect v2 p2 .success _
    (cacheInv_connect v1 p1 .success st hinv)⟩
  obtain ⟨hkeys, hfs, hbound⟩ := hinv
  cases hf1 : findIncr v1 p1 st.cache with
  | some r1 =>
    obtain ⟨f1, c1⟩ := r1
    obtain ⟨⟨e1s, he1s, _, _, he1sf⟩, ⟨e1, he1, h1v, h1p, h1f⟩, hk1, hff1⟩ :=
      findIncr_some v1 p1 st.cache f1 c1 hf1
    cases hf2 : findIncr v2 p2 c1 with
    | some r2 =>
      obtain ⟨f2, c2⟩ := r2
      obtain ⟨⟨e2, he2, h2v, h2p, h2f⟩, _, _, _⟩ :=
        findIncr_some v2 p2 c1 f2 c2 hf2
      refine ⟨f1, f2, ?_, ?_, ?_⟩
      · simp [vfs_gluster_connect, hf1]
      · simp [vfs_gluster_connect, hf1, hf2]
      · intro hcontra
        have hnodup : (c1.map Preopened.fs).Nodup := by
          rw [hff1]
          exact hfs
        have heq := mem_of_nodup_map_eq Preopened.fs c1 hnodup e1 e2 he1 he2
          (by rw [h1f, h2f, hcontra])
        apply hkey
        rw [← h1v, ← h1p, heq, h2v, h2p]
    | none =>
      refine ⟨f1, st.nextFs, ?_, ?_, ?_⟩
      · simp [vfs_gluster_connect, hf1]
      · simp [vfs_gluster_connect, hf1, hf2]
      · intro hcontra
        have hlt : f1 < st.nextFs := he1sf ▸ hbound e1s he1s
        omega
  | none =>
    have hhead : ¬((v1 = v2 ∧ p1 = p2)) := by
      intro hc
      exact hkey (by rw [hc.1, hc.2])
    have hcons : findIncr v2 p2 (⟨v1, p1, st.nextFs, 1⟩ :: st.cache)
        = (findIncr v2 p2 st.cache).map
            fun r => (r.1, ⟨v1, p1, st.nextFs, 1⟩ :: r.2) := by
      rw [findIncr]
      rw [if_neg hhead]
    cases hf2 : findIncr v2 p2 st.cache with
    | some r2 =>
      obtain ⟨f2, c2⟩ := r2
      obtain ⟨⟨e2, he2, _, _, he2f⟩, _, _, _⟩ :=
        findIncr_some v2 p2 st.cache f2 c2 hf2
      refine ⟨st.nextFs, f2, ?_, ?_, ?_⟩
      · simp [vfs_gluster_connect, hf1]
      · simp [vfs_gluster_connect, hf1, hcons, hf2]
      · intro hcontra
        have hlt : f2 < st.nextFs := he2f ▸ hbound e2 he2
        omega
    | none =>
      refine ⟨st.nextFs, st.nextFs + 1, ?_, ?_, ?_⟩
      · simp [vfs_gluster_connect, hf1]
      · simp [vfs_gluster_connect, hf1, hcons, hf2]
      · omega

/-- Claim C6 witness: acquiring "volA" and "volB" on the same path from the
empty cache yields the distinct sessions 0 and 1. -/
theorem independent_volumes_witness :
    (∃ f1 f2,
      (vfs_gluster_connect "volA" "/p" ConnectOutcome.success ⟨[], 0, []⟩).1
        = some f1 ∧
      (vfs_gluster_connect "volB" "/p" ConnectOutcome.success
         (vfs_gluster_connect "volA" "/p" ConnectOutcome.success
           ⟨[], 0, []⟩).2).1 = some f2 ∧
      f1 ≠ f2) :=
  (independent_volumes "volA" "/p" "volB" "/p" ⟨[], 0, []⟩ (by decide)
    cacheInv_empty).1

/-- Claim C7: `smb_stat_ex_from_stat` is a pure total mapping that copies device
id, inode, mode, link count, uid/gid, rdev, size, the three second-resolution
timestamps, block size and block count unchanged and without validation, sets the
creation-time field from the modify-time field, and leaves every nanosecond field
zero when the platform provides no sub-second resolution. -/
theorem stat_translation_copies_fields (b : Bool) (src : CStat) :
    (smb_stat_ex_from_stat b src).st_ex_dev = src.st_dev ∧
    (smb_stat_ex_from_stat b src).st_ex_ino = src.st_ino ∧
    (smb_stat_ex_from_stat b src).st_ex_mode = src.st_mode ∧
    (smb_stat_ex_from_stat b src).st_ex_nlink = src.st_nlink ∧
    (smb_stat_ex_from_stat b src).st_ex_uid = src.st_uid ∧
    (smb_stat_ex_from_stat b src).st_ex_gid = src.st_gid ∧
    (smb_stat_ex_from_stat b src).st_ex_rdev = src.st_rdev ∧
    (smb_stat_ex_from_stat b src).st_ex_size = src.st_size ∧
    (smb_stat_ex_from_stat b src).st_ex_atime.tv_sec = src.st_atime ∧
    (smb_stat_ex_from_stat b src).st_ex_mtime.tv_sec = src.st_mtime ∧
    (smb_stat_ex_from_stat b src).st_ex_ctime.tv_sec = src.st_ctime ∧
    (smb_stat_ex_from_stat b src).st_ex_btime.tv_sec = src.st_mtime ∧
    (smb_stat_ex_from_stat b src).st_ex_blksize = src.st_blksize ∧
    (smb_stat_ex_from_stat b src).st_ex_blocks = src.st_blocks ∧
    (smb_stat_ex_from_stat b src).st_ex_atime.tv_nsec
      = (if b then src.st_atime_nsec else 0) ∧
    (smb_stat_ex_from_stat b src).st_ex_mtime.tv_nsec
      = (if b then src.st_mtime_nsec else 0) ∧
    (smb_stat_ex_from_stat b src).st_ex_ctime.tv_nsec
      = (if b then src.st_ctime_nsec else 0) ∧
    (smb_stat_ex_from_stat b src).st_ex_btime.tv_nsec
      = (if b then src.st_mtime_nsec else 0) :=
  ⟨rfl, rfl, rfl, rfl, rfl, rfl, rfl, rfl, rfl, rfl, rfl, rfl, rfl, rfl, rfl,
   rfl, rfl, rfl⟩

/-- Claim C8 counterexample: the claim that `vfs_gluster_readdir` returns an
end-of-stream outcome distinct from an error outcome is false on the code — at
end of stream (backend returns 0 with a NULL entry) and on a backend failure
(negative return) the function returns the very same NULL result, so the two
situations are not distinguishable to the caller. -/
theorem readdir_eof_error_counterexample :
    vfs_gluster_readdir 0 none = vfs_gluster_readdir (-1) none ∧
    vfs_gluster_readdir 0 none = none := by
  constructor <;> rfl

/-- Claim C8 (amended): `vfs_gluster_readdir` returns NULL exactly when the
backend call failed or produced no entry; end of stream and backend failure
collapse to the same NULL result rather than being distinct outcomes. -/
theorem readdir_none_iff (ret : Int) (dirent : Option DirentRec) :
    vfs_gluster_readdir ret dirent = none ↔ (ret < 0 ∨ dirent = none) := by
  by_cases hr : ret < 0
  · simp [vfs_gluster_readdir, hr]
  · cases dirent <;> simp [vfs_gluster_readdir, hr]

/-- Claim C10: a successful open stores the backend descriptor in the file
object's extension and returns the fixed constant 13371337 instead of it;
subsequent read/fstat fetch the descriptor from the extension, and close removes
the extension and hands exactly that descriptor to the backend close. -/
theorem open_returns_magic (od cr op : Option Nat) (flags : Nat)
    (fsp : FilesStruct) (g : Nat)
    (h : open_branch od cr op flags = some g) :
    (vfs_gluster_open od cr op flags fsp).1 = 13371337 ∧
    (vfs_gluster_open od cr op flags fsp).2.ext = some g ∧
    vfs_gluster_read (vfs_gluster_open od cr op flags fsp).2 = some g ∧
    vfs_gluster_fstat (vfs_gluster_open od cr op flags fsp).2 = some g ∧
    vfs_gluster_close (vfs_gluster_open od cr op flags fsp).2
      = (some g, ⟨none⟩) := by
  simp only [vfs_gluster_open, h]
  simp [vfs_gluster_read, vfs_gluster_fstat, vfs_gluster_close]

/-- Claim C10 witness: a plain file open (no O_DIRECTORY/O_CREAT bit) whose
backend `glfs_open` returns descriptor 7. -/
theorem open_returns_magic_witness :
    (vfs_gluster_open none none (some 7) 0 ⟨none⟩).1 = 13371337 ∧
    (vfs_gluster_open none none (some 7) 0 ⟨none⟩).2.ext = some 7 ∧
    vfs_gluster_read (vfs_gluster_open none none (some 7) 0 ⟨none⟩).2 = some 7 ∧
    vfs_gluster_fstat (vfs_gluster_open none none (some 7) 0 ⟨none⟩).2 = some 7 ∧
    vfs_gluster_close (vfs_gluster_open none none (some 7) 0 ⟨none⟩).2
      = (some 7, ⟨none⟩) :=
  open_returns_magic none none (some 7) 0 ⟨none⟩ 7 (by decide)

/-- Claim C9: `vfs_gluster_get_real_filename` fails with the distinct errno
`ENAMETOOLONG` and performs no backend call exactly when the requested name is
too long for the fixed `NAME_MAX` bound (at least `NAME_MAX` bytes, i.e. it
exceeds the maximum permitted length `NAME_MAX - 1 = 254`); otherwise the
backend is consulted with the attribute key built as the fixed prefix,
a colon and the requested name. -/
theorem get_real_filename_spec (name : String)
    (bk : String → Except Nat String) :
    (((vfs_gluster_get_real_filename name bk).1 = .error ENAMETOOLONG ∧
       (vfs_gluster_get_real_filename name bk).2 = none)
      ↔ NAME_MAX ≤ name.length) ∧
    (name.length < NAME_MAX →
      (vfs_gluster_get_real_filename name bk).2
        = some ("user.glusterfs.get_real_filename" ++ ":" ++ name)) := by
  have hkey : grf_key name = "user.glusterfs.get_real_filename" ++ ":" ++ name := by
    rw [grf_key]
    rfl
  simp only [vfs_gluster_get_real_filename]
  split
  next hge =>
    exact ⟨⟨fun _ => hge, fun _ => ⟨rfl, rfl⟩⟩, fun hlt => absurd hge (by omega)⟩
  next hlt =>
    have hnle : ¬ NAME_MAX ≤ name.length := hlt
    cases hbk : bk (grf_key name) with
    | error e =>
      exact ⟨⟨fun hc => absurd hc.2 (by simp), fun hge => absurd hge hnle⟩,
        fun _ => by rw [hkey]⟩
    | ok v =>
      exact ⟨⟨fun hc => absurd hc.2 (by simp), fun hge => absurd hge hnle⟩,
        fun _ => by rw [hkey]⟩

/-- Claim C9 witness: a short name resolves through the backend with the
documented key shape; a 255-byte name fails with ENAMETOOLONG and no call. -/
theorem get_real_filename_spec_witness :
    ("abc".length < NAME_MAX) ∧
    (vfs_gluster_get_real_filename "abc" (fun _ => .ok "ABC")).2
      = some ("user.glusterfs.get_real_filename" ++ ":" ++ "abc") :=
  ⟨by decide, (get_real_filename_spec "abc" (fun _ => .ok "ABC")).2 (by decide)⟩

/-- Claim C3: `smb_to_gluster_acl` in size-query mode (NULL buffer) returns
exactly `headerSize + N * recordSize = 4 + 8N` without writing anything;
encoding into a buffer of exactly that length succeeds, writing exactly that
many bytes; and encoding into any shorter buffer fails with `errno = ERANGE`,
return -1, without writing. -/
theorem encode_size_probe (theacl : List SmbAce) (len : Nat)
    (h : len < 4 + theacl.length * 8) :
    smb_to_gluster_acl theacl false len = .size (4 + theacl.length * 8) ∧
    (∃ bytes, smb_to_gluster_acl theacl true (4 + theacl.length * 8) = .ok bytes ∧
       bytes.length = 4 + theacl.length * 8) ∧
    smb_to_gluster_acl theacl true len = .rangeError := by
  refine ⟨rfl,
    ⟨gluster_acl_to_xattr (gluster_acl_normalize (theacl.map smbAceToGluster)),
      ?_, ?_⟩, ?_⟩
  · simp [smb_to_gluster_acl]
  · rw [length_to_xattr, length_normalize, List.length_map]
    ring
  · simp [smb_to_gluster_acl, h]

/-- Claim C3 witness: a one-entry ACL probes to 12 bytes; a 0-length buffer is
rejected with ERANGE. -/
theorem encode_size_probe_witness :
    (0 < 4 + ([⟨.USER_OBJ, 0, 0, 7⟩] : List SmbAce).length * 8) ∧
    (smb_to_gluster_acl [⟨.USER_OBJ, 0, 0, 7⟩] false 0 = .size 12 ∧
     (∃ bytes, smb_to_gluster_acl [⟨.USER_OBJ, 0, 0, 7⟩] true 12 = .ok bytes ∧
        bytes.length = 12) ∧
     smb_to_gluster_acl [⟨.USER_OBJ, 0, 0, 7⟩] true 0 = .rangeError) :=
  ⟨by decide, encode_size_probe [⟨.USER_OBJ, 0, 0, 7⟩] 0 (by decide)⟩

end VfsGlusterfs
